import Mathlib

/-!
Formal model of the memory-book storybook generator.

The Python sources under `src/` are shallowly embedded as executable
Lean definitions:

* text is modelled as `List Char`; Python `str.split("\n\n")` becomes
  `split2`, `str.replace` with one-character patterns becomes
  `replaceChar`;
* the filesystem is a function from paths to optional file contents
  (`FS`), where an image file carries its pixel dimensions and a
  `corrupt` file makes `Image.open` raise;
* the fpdf document is a list of closed pages plus an optional open
  page (`PdfState`); fpdf calls `footer` exactly when a page is closed
  (at the next `add_page`, or at `output` for the final page), which
  the model reproduces;
* Python exceptions are modelled with `Except`, carrying the state at
  the raise point so that on-disk effects of failed runs stay
  observable;
* floating-point arithmetic of the layout code is modelled over `ℚ`
  (the constant `0.45` becomes `9/20`), and the text-wrapping oracle
  `pdf.multi_cell(..., split_only=True)` is abstracted as a parameter
  giving the wrapped line count per font size.
-/

namespace MemoryBook

/-- A file path, modelled as its character list. -/
abbrev Path := List Char

/-! ## Splitting story text on the double-newline delimiter

Models Python `story_text.split('\n\n')` (book_assembler.py line 154,
api_clients.py line 97): non-overlapping occurrences are consumed left
to right, and the empty string yields the one-element list `[""]`. -/

/-- Python `s.split("\n\n")` on character lists. -/
def split2 : List Char → List (List Char)
  | [] => [[]]
  | '\n' :: '\n' :: rest => [] :: split2 rest
  | c :: rest =>
    (c :: (split2 rest).headI) :: (split2 rest).tail

/-! ## Story-text punctuation normalization

Models the cleanup pass of `get_story_from_gemini` (api_clients.py
lines 35-42): a chain of `str.replace` calls whose patterns are all
single characters, applied to the response text. -/

/-- Python `s.replace(c, r)` for a one-character pattern `c`. -/
def replaceChar (c : Char) (r : List Char) : List Char → List Char
  | [] => []
  | x :: xs => (if x = c then r else [x]) ++ replaceChar c r xs

/-- The normalization chain applied to the Gemini response text, in
the source's order: ellipsis, right and left curly single quotes,
left and right curly double quotes, em-dash. -/
def clean_text (s : List Char) : List Char :=
  let s1 := replaceChar '…' ['.', '.', '.'] s
  let s2 := replaceChar '’' ['\''] s1
  let s3 := replaceChar '‘' ['\''] s2
  let s4 := replaceChar '“' ['"'] s3
  let s5 := replaceChar '”' ['"'] s4
  replaceChar '—' ['-', '-'] s5

/-- The six source glyphs removed by the normalization. -/
def glyphs : List Char := ['…', '’', '‘', '“', '”', '—']

/-- The per-character effect of the normalization chain: each glyph is
replaced by its ASCII expansion, every other character is untouched. -/
def normChar (x : Char) : List Char :=
  if x = '…' then ['.', '.', '.']
  else if x = '’' then ['\'']
  else if x = '‘' then ['\'']
  else if x = '“' then ['"']
  else if x = '”' then ['"']
  else if x = '—' then ['-', '-']
  else [x]

/-! ## Theme-color lookup

Models `COLOR_MAP` (book_assembler.py lines 10-17) and the resolution
`COLOR_MAP.get(theme_color.lower(), (255, 255, 255))` (line 133). -/

/-- An RGB triple. -/
abbrev RGB := Nat × Nat × Nat

/-- The fixed theme-color lookup table. -/
def COLOR_MAP : List (List Char × RGB) :=
  [("light blue".data, (204, 229, 255)),
   ("light pink".data, (255, 204, 229)),
   ("light green".data, (204, 255, 204)),
   ("light yellow".data, (255, 255, 204)),
   ("light gray".data, (230, 230, 230)),
   ("white".data, (255, 255, 255))]

/-- Python `str.lower` on one ASCII character. -/
def pyLowerChar (c : Char) : Char :=
  if 65 ≤ c.toNat ∧ c.toNat ≤ 90 then Char.ofNat (c.toNat + 32) else c

/-- Python `str.lower` on a character list. -/
def pyLower (s : List Char) : List Char := s.map pyLowerChar

/-- Resolution of a theme-color name to its background fill:
`COLOR_MAP.get(theme_color.lower(), (255, 255, 255))`. -/
def resolve_theme_color (theme : List Char) : RGB :=
  (List.lookup (pyLower theme) COLOR_MAP).getD (255, 255, 255)

/-! ## Auto-fit font-size search

Models `calculate_optimal_font_size` (book_assembler.py lines
99-122).  The wrapped line count returned by
`pdf.multi_cell(w=max_width, h=size/2, text=text, split_only=True)`
depends only on the font size once the text and width are fixed, so it
is abstracted as a parameter `numLines : Nat → Nat`.  The float
constant `0.45` is modelled exactly as `9/20 : ℚ`. -/

/-- Whether a candidate size fits: estimated block height
`num_lines * (size * 0.45)` does not exceed `max_height`. -/
def fitsSize (numLines : Nat → Nat) (max_height : ℚ) (size : Nat) : Prop :=
  (numLines size : ℚ) * ((size : ℚ) * (9 / 20)) ≤ max_height

instance (numLines : Nat → Nat) (max_height : ℚ) (size : Nat) :
    Decidable (fitsSize numLines max_height size) := by
  unfold fitsSize
  infer_instance

/-- The `while size >= min_size` loop of `calculate_optimal_font_size`
with `min_size = 10`, counting `size` down by 1. -/
def font_size_loop (numLines : Nat → Nat) (max_height : ℚ) : Nat → Nat × ℚ
  | size =>
    if 10 ≤ size then
      let line_height_mm : ℚ := (size : ℚ) * (9 / 20)
      if (numLines size : ℚ) * line_height_mm ≤ max_height then
        (size, line_height_mm)
      else
        font_size_loop numLines max_height (size - 1)
    else
      (10, (10 : ℚ) * (9 / 20))
termination_by size => size
decreasing_by omega

/-- `calculate_optimal_font_size(pdf, text, max_width, max_height)`:
the loop starts at `size = 18`. -/
def calculate_optimal_font_size (numLines : Nat → Nat) (max_height : ℚ) :
    Nat × ℚ :=
  font_size_loop numLines max_height 18

/-! ## Aspect-ratio-preserving image fitting

Models the placement arithmetic of `create_pdf` (book_assembler.py
lines 180-194): given source pixel dimensions and the available square
side `img_max_size`, compute the drawn size and the centred position
inside the white frame. -/

/-- The scaled image size `(new_w, new_h)` for a source of pixel size
`(w_px, h_px)` inside an available square of side `img_max_size`. -/
def img_fit (img_max_size w_px h_px : ℚ) : ℚ × ℚ :=
  let aspect_ratio := h_px / w_px
  if 1 < aspect_ratio then
    (img_max_size / aspect_ratio, img_max_size)
  else
    (img_max_size, img_max_size * aspect_ratio)

/-- The top-left corner of the placed image:
`frame + padding + (img_max_size - new) / 2` on each axis. -/
def img_place (frame_x frame_y padding img_max_size w_px h_px : ℚ) : ℚ × ℚ :=
  (frame_x + padding + (img_max_size - (img_fit img_max_size w_px h_px).1) / 2,
   frame_y + padding + (img_max_size - (img_fit img_max_size w_px h_px).2) / 2)

/-! ## Filesystem and path model

The local filesystem is a map from paths to optional file contents.
An `image` file opens successfully in PIL and carries its pixel
dimensions; a `corrupt` file makes `Image.open` raise. -/

/-- Contents of a file on disk, as far as the layout engine looks. -/
inductive FileKind where
  | image (w h : Nat)
  | corrupt
deriving DecidableEq

/-- The filesystem: `none` means the path does not exist. -/
def FS : Type := Path → Option FileKind

/-- Writing (or, with `none`, deleting) a file. -/
def FS.set (fs : FS) (p : Path) (k : Option FileKind) : FS :=
  fun q => if q = p then k else fs q

/-- Helper for `os.path`: the part of the path after the last slash
(`(p[:i], p[i:])` around `i = p.rfind('/') + 1`). -/
def pathSplitAtSlash (p : Path) : Path × Path :=
  ((p.reverse.dropWhile (fun c => c ≠ '/')).reverse,
   (p.reverse.takeWhile (fun c => c ≠ '/')).reverse)

/-- Python `os.path.basename` (posix semantics). -/
def pyBasename (p : Path) : Path := (pathSplitAtSlash p).2

/-- Python `os.path.dirname` (posix semantics): the head before the
last slash, with trailing slashes stripped unless it is all slashes. -/
def pyDirname (p : Path) : Path :=
  let head := (pathSplitAtSlash p).1
  if head ≠ [] ∧ ¬ head.all (fun c => c = '/') then
    (head.reverse.dropWhile (fun c => c = '/')).reverse
  else head

/-- Python `os.path.join` for two components (posix semantics). -/
def pyJoin (a b : Path) : Path :=
  if b.head? = some '/' then b
  else if a = [] ∨ a.getLast? = some '/' then a ++ b
  else a ++ '/' :: b

/-- The temp filename used by `style_image_organic` (lines 89-91):
`os.path.join(dir_name, f"organic_{base_name}")`. -/
def organic_name (p : Path) : Path :=
  pyJoin (pyDirname p) ("organic_".data ++ pyBasename p)

/-- Whether `pat` occurs at the start of `s`. -/
def beginsWithSeq : List Char → List Char → Bool
  | [], _ => true
  | _ :: _, [] => false
  | p :: ps, c :: cs => p = c && beginsWithSeq ps cs

/-- Python `pat in s` substring containment. -/
def containsSeq (pat : List Char) : List Char → Bool
  | [] => beginsWithSeq pat []
  | c :: cs => beginsWithSeq pat (c :: cs) || containsSeq pat cs

/-! ## The fpdf document model

fpdf finalizes a page — and runs the `footer` hook — when the next
page is added, or at `output()` for the final page.  The model keeps
the list of closed pages, the currently open page, and the
`_page_count` attribute that `PDF.page_count` reads (0 until
`create_pdf` sets it just before `output`). -/

/-- What the model records of one rendered page: images placed
(path, x, y, w, h), text blocks (text, font size, line height), and a
page number drawn by the footer hook, if any. -/
structure PageContent where
  images : List (Path × ℚ × ℚ × ℚ × ℚ)
  texts : List (List Char × Nat × ℚ)
  footerNum : Option Nat
deriving DecidableEq

/-- A freshly added page. -/
def emptyPage : PageContent := ⟨[], [], none⟩

/-- The fpdf document state. -/
structure PdfState where
  closed : List PageContent
  current : Option PageContent
  pageCountAttr : Nat
deriving DecidableEq

/-- `pdf.page_no()`: the index of the current page (1-based). -/
def page_no (p : PdfState) : Nat :=
  p.closed.length + (if p.current.isSome then 1 else 0)

/-- `PDF.footer` (book_assembler.py lines 21-27): draws the number
`page_no() - 1` iff `page_no() > 1 and page_no() < self.page_count`. -/
def footer_num (pno pageCount : Nat) : Option Nat :=
  if 1 < pno ∧ pno < pageCount then some (pno - 1) else none

/-- Finalizing the open page: fpdf runs the footer hook with the page
still current, then moves it to the closed list. -/
def closeCurrent (p : PdfState) : PdfState :=
  match p.current with
  | none => p
  | some pg =>
    { closed := p.closed ++
        [{ pg with footerNum := footer_num (page_no p) p.pageCountAttr }],
      current := none,
      pageCountAttr := p.pageCountAttr }

/-- `pdf.add_page()`: finalize the open page, then open a fresh one. -/
def add_page (p : PdfState) : PdfState :=
  { closeCurrent p with current := some emptyPage }

/-- The state threaded through `create_pdf`: the document being
drawn, the filesystem, the derived organic temp files currently on
disk, and the resolved theme fill. -/
structure RenderState where
  pdf : PdfState
  fs : FS
  derived : List Path
  themeRGB : RGB

/-- Updating the open page in place. -/
def mapCurrent (p : PdfState) (f : PageContent → PageContent) : PdfState :=
  { p with current := p.current.map f }

/-- `pdf.image(...)` onto the open page. -/
def draw_image_current (st : RenderState) (e : Path × ℚ × ℚ × ℚ × ℚ) :
    RenderState :=
  { st with pdf :=
      mapCurrent st.pdf (fun pg => { pg with images := pg.images ++ [e] }) }

/-- `pdf.multi_cell(...)` rendering a text block onto the open page. -/
def draw_text_current (st : RenderState) (e : List Char × Nat × ℚ) :
    RenderState :=
  { st with pdf :=
      mapCurrent st.pdf (fun pg => { pg with texts := pg.texts ++ [e] }) }

/-- `style_image_organic(image_path)` (lines 76-97): on a readable
image, write the masked copy `organic_<basename>` beside the original
and return its path; on any failure the exception is caught and the
original path is returned.  The alpha mask leaves pixel dimensions
unchanged. -/
def style_image_organic (st : RenderState) (p : Path) : RenderState × Path :=
  match st.fs p with
  | some (.image w h) =>
    let temp_name := organic_name p
    ({ st with fs := st.fs.set temp_name (some (.image w h)),
               derived := st.derived ++ [temp_name] }, temp_name)
  | _ => (st, p)

/-- `os.remove(path)` (the surrounding `try/except: pass` swallows
removal errors, which the model has none of). -/
def os_remove (st : RenderState) (p : Path) : RenderState :=
  { st with fs := st.fs.set p none,
            derived := st.derived.filter (fun q => q ≠ p) }

/-- Image placement for one story page (lines 176-201): guarded by
`i < len(image_list) and os.path.exists(image_list[i])` (here the
argument is `image_list[i]?`); styles the image, reads its pixel size
(raising on an unreadable file), raises `ZeroDivisionError` on a
zero-width image, draws the aspect-fitted centred image, and removes
the styled copy when its path contains `"organic_"`. -/
def place_image (st : RenderState) (pOpt : Option Path) :
    Except RenderState RenderState :=
  match pOpt with
  | none => .ok st
  | some ip =>
    if (st.fs ip).isSome then
      let sp := style_image_organic st ip
      match sp.1.fs sp.2 with
      | some (.image w h) =>
        if w = 0 then .error sp.1
        else
          let wh := img_fit 130 (w : ℚ) (h : ℚ)
          let xy := img_place 35 15 5 130 (w : ℚ) (h : ℚ)
          let st2 := draw_image_current sp.1 (sp.2, xy.1, xy.2, wh.1, wh.2)
          .ok (if containsSeq "organic_".data sp.2 then os_remove st2 sp.2
               else st2)
      | _ => .error sp.1
    else .ok st

/-- One iteration of the story-page loop (lines 156-219): add a page,
fill background and frame, place the illustration if available, then
auto-fit and draw the page text below the frame
(`space_below = 210 - (15 + 140) - 15 = 40`). -/
def render_story_page (wrap : Nat → List Char → Nat) (image_list : List Path)
    (i : Nat) (text_page : List Char) (st : RenderState) :
    Except RenderState RenderState :=
  let st1 : RenderState := { st with pdf := add_page st.pdf }
  match place_image st1 image_list[i]? with
  | .error e => .error e
  | .ok st2 =>
    let fit := calculate_optimal_font_size (fun s => wrap s text_page) 40
    .ok (draw_text_current st2 (text_page, fit.1, fit.2))

/-- The `for i, text_page in enumerate(text_pages)` loop. -/
def render_pages (wrap : Nat → List Char → Nat) (image_list : List Path) :
    Nat → List (List Char) → RenderState → Except RenderState RenderState
  | _, [], st => .ok st
  | i, t :: ts, st =>
    match render_story_page wrap image_list i t st with
    | .error e => .error e
    | .ok st' => render_pages wrap image_list (i + 1) ts st'

/-- The cover background (lines 139-143 and 226-230): full-bleed cover
image when the path is truthy and exists (raising if fpdf cannot read
it), else a theme-colored rectangle. -/
def draw_cover_background (st : RenderState) (cover : Option Path) :
    Except RenderState RenderState :=
  match cover with
  | none => .ok st
  | some p =>
    if !p.isEmpty && (st.fs p).isSome then
      match st.fs p with
      | some (.image _ _) => .ok (draw_image_current st (p, 0, 0, 210, 210))
      | _ => .error st
    else .ok st

/-- The inputs of `create_pdf`, with the external effects the code
depends on: the wrapping oracle of `pdf.multi_cell(split_only=True)`
(line count as a function of font size and text at the fixed width),
whether `pdf.output(output_filename)` succeeds, and the filesystem. -/
structure PdfArgs where
  wrap : Nat → List Char → Nat
  out_ok : Bool
  title : List Char
  story_text : List Char
  image_list : List Path
  end_message : List Char
  cover_image_path : Option Path
  theme_color : List Char
  fs0 : FS

/-- The front cover (lines 136-149): `pdf.add_page()`, the cover
background, then the title block at size 42. -/
def front_cover (a : PdfArgs) (st : RenderState) :
    Except RenderState RenderState :=
  let st1 : RenderState := { st with pdf := add_page st.pdf }
  match draw_cover_background st1 a.cover_image_path with
  | .error e => .error e
  | .ok st2 => .ok (draw_text_current st2 (a.title, 42, 16))

/-- The back cover (lines 221-235), drawn only when the end message
is truthy: `pdf.add_page()`, the cover background again, then the end
message at size 24. -/
def back_cover (a : PdfArgs) (st3 : RenderState) :
    Except RenderState RenderState :=
  if a.end_message.isEmpty then .ok st3
  else
    let st4 : RenderState := { st3 with pdf := add_page st3.pdf }
    match draw_cover_background st4 a.cover_image_path with
    | .error e => .error e
    | .ok st5 => .ok (draw_text_current st5 (a.end_message, 24, 10))

/-- Lines 237-238: `pdf._page_count = pdf.page_no()` and then
`pdf.output(output_filename)`, which finalizes (and runs the footer
of) the last open page before writing the file. -/
def finalize_output (a : PdfArgs) (st6 : RenderState) :
    Except RenderState RenderState :=
  let st7 : RenderState :=
    { st6 with pdf := { st6.pdf with pageCountAttr := page_no st6.pdf } }
  let st8 : RenderState := { st7 with pdf := closeCurrent st7.pdf }
  if a.out_ok then .ok st8 else .error st8

/-- Sequencing inside the `try:` block: an exception raised by the
first stage propagates past the rest. -/
def andThen (e : Except RenderState RenderState)
    (f : RenderState → Except RenderState RenderState) :
    Except RenderState RenderState :=
  match e with
  | .error er => .error er
  | .ok st => f st

/-- The body of `create_pdf`'s `try:` block (lines 128-240): front
cover with title, one page per double-newline segment, optional back
cover with the end message, then page-count attribute assignment and
output.  An `.error` carries the state at the raise point. -/
def create_pdf_run (a : PdfArgs) : Except RenderState RenderState :=
  let st0 : RenderState :=
    { pdf := { closed := [], current := none, pageCountAttr := 0 },
      fs := a.fs0, derived := [],
      themeRGB := resolve_theme_color a.theme_color }
  andThen (front_cover a st0) (fun st2 =>
    andThen (render_pages a.wrap a.image_list 0 (split2 a.story_text) st2)
      (fun st3 =>
        andThen (back_cover a st3) (fun st6 => finalize_output a st6)))

/-- `create_pdf(...)` (lines 124-244): the `try/except` wrapper that
reports a boolean instead of letting any exception escape.  The final
state is returned alongside so on-disk effects stay observable. -/
def create_pdf (a : PdfArgs) : Bool × RenderState :=
  match create_pdf_run a with
  | .ok st => (true, st)
  | .error st => (false, st)

/-! ## Invariants of the rendering loop -/

/-- The path is absent from disk, or a readable image with positive
pixel dimensions. -/
def fileOkB : Option FileKind → Bool
  | none => true
  | some (.image w h) => decide (0 < w) && decide (0 < h)
  | some .corrupt => false

/-- If the path holds an image, its width is positive. -/
def widthOkB : Option FileKind → Bool
  | some (.image w _) => decide (0 < w)
  | _ => true

/-- A truthy, existing cover path is not a corrupt file. -/
def coverOkB (fs : FS) : Option Path → Bool
  | none => true
  | some p => p.isEmpty || !(decide (fs p = some FileKind.corrupt))

/-- The state after the page-count assignment and the final page
close performed by `pdf.output`. -/
def finalizeState (st : RenderState) : RenderState :=
  { st with pdf :=
      closeCurrent { st.pdf with pageCountAttr := page_no st.pdf } }

/-! ## API clients and orchestrator (api_clients.py, main.py)

The network responses are inputs of the model: a response either
carries a value or is the exception the request raised.  An inline
image part carries the media subtype the code derives the file
extension from. -/

/-- One inline binary part of a generation response (the code reads
only the media subtype, for the file extension). -/
structure ImgData where
  mime_sub : List Char
deriving DecidableEq

/-- `get_story_from_gemini` (api_clients.py lines 20-47): raises on a
missing key, re-raises any request failure, and otherwise returns the
normalized response text. -/
def get_story_from_gemini (api_key : Bool)
    (response : Except Unit (List Char)) : Except Unit (List Char) :=
  if !api_key then .error ()
  else
    match response with
    | .error e => .error e
    | .ok text => .ok (clean_text text)

/-- `get_cover_image` (api_clients.py lines 50-84): returns `None` on
a missing key, on a request exception (caught internally), on a
response without an inline image part, or on a file-write failure
(also caught); otherwise saves `cover_pattern.<subtype>` and returns
that path. -/
def get_cover_image (api_key : Bool)
    (response : Except Unit (Option ImgData)) (write_ok : Bool) :
    Option Path :=
  if !api_key then none
  else
    match response with
    | .error _ => none
    | .ok none => none
    | .ok (some d) =>
      if write_ok then some ("cover_pattern.".data ++ d.mime_sub)
      else none

/-- The per-page loop of `get_images_from_api` (lines 137-158): one
`chat.send_message` per story page; an exception ends the whole loop
(caught at lines 160-162) returning the paths accumulated so far; a
reply without an image part only skips that page. -/
def images_loop (responses : Nat → Except Unit (Option ImgData)) :
    Nat → List (List Char) → List Path → List Path
  | _, [], acc => acc
  | i, _ :: rest, acc =>
    match responses i with
    | .error _ => acc
    | .ok none => images_loop responses (i + 1) rest acc
    | .ok (some d) =>
      images_loop responses (i + 1) rest
        (acc ++ ["temp_image_".data ++ (Nat.repr i).data ++
          ('.' :: d.mime_sub)])

/-- `get_images_from_api` (api_clients.py lines 87-164): empty list on
a missing key; splits the story on the double-newline delimiter, and
the `if not story_pages` guard returns early on an empty page list. -/
def get_images_from_api (api_key : Bool) (story_text : List Char)
    (responses : Nat → Except Unit (Option ImgData)) : List Path :=
  if !api_key then []
  else
    let story_pages := split2 story_text
    if story_pages = [] then []
    else images_loop responses 0 story_pages []

/-- The outcome of `main()`: either `sys.exit(code)` or a normal end
whose final message depends on `create_pdf`'s boolean. -/
inductive MainResult where
  | exited (code : Nat)
  | finished (success : Bool)
deriving DecidableEq

/-- The `try/except` skeleton of `main()` (main.py lines 108-159):
each stage argument is what the client call did — returned a value, or
let an exception escape; an escaped exception triggers `sys.exit(1)`
at that stage. -/
def main_model (storyRes : Except Unit (List Char))
    (coverRes : Except Unit (Option Path))
    (imagesRes : Except Unit (List Path)) (pdf_ok : Bool) : MainResult :=
  match storyRes with
  | .error _ => .exited 1
  | .ok _ =>
    match coverRes with
    | .error _ => .exited 1
    | .ok _ =>
      match imagesRes with
      | .error _ => .exited 1
      | .ok _ => .finished pdf_ok

/-- The pipeline as actually composed in `main()`: the cover and
illustration clients are total functions — they catch request
exceptions internally — so their stages always reach `main`'s
handlers as returned values, never as exceptions. -/
def pipeline (api_key : Bool) (storyApi : Except Unit (List Char))
    (coverApi : Except Unit (Option ImgData)) (cover_write_ok : Bool)
    (imagesApi : Nat → Except Unit (Option ImgData)) (pdf_ok : Bool) :
    MainResult :=
  match get_story_from_gemini api_key storyApi with
  | .error _ => .exited 1
  | .ok story_text =>
    main_model (.ok story_text)
      (.ok (get_cover_image api_key coverApi cover_write_ok))
      (.ok (get_images_from_api api_key story_text imagesApi))
      pdf_ok

/-! ## Concrete example inputs -/

/-- A filesystem with one readable story illustration and a readable
cover pattern. -/
def exampleFS : FS := fun p =>
  if p = "img1.png".data then some (.image 800 600)
  else if p = "cover.png".data then some (.image 512 512)
  else none

/-- Two story segments, two listed illustration paths of which the
second is missing on disk, a cover image and an end message. -/
def exampleArgs : PdfArgs :=
  { wrap := fun _ _ => 2, out_ok := true, title := "My Story".data,
    story_text := "A\n\nB".data,
    image_list := ["img1.png".data, "missing.png".data],
    end_message := "The End".data,
    cover_image_path := some "cover.png".data,
    theme_color := "light blue".data,
    fs0 := exampleFS }

/-- Two story segments, no images, no cover, an end message: a
4-page document. -/
def exampleArgsPlain : PdfArgs :=
  { wrap := fun _ _ => 1, out_ok := true, title := "T".data,
    story_text := "A\n\nB".data,
    image_list := [],
    end_message := "The End".data,
    cover_image_path := none,
    theme_color := "white".data,
    fs0 := fun _ => none }

/-- An empty story text, no images, no cover, an end message. -/
def exampleArgsEmpty : PdfArgs :=
  { wrap := fun _ _ => 1, out_ok := true, title := "T".data,
    story_text := [],
    image_list := [],
    end_message := "The End".data,
    cover_image_path := none,
    theme_color := "white".data,
    fs0 := fun _ => none }

/-- The split of any text is a nonempty list of segments. -/
theorem split2_ne_nil (l : List Char) : split2 l ≠ [] := by
  induction l using split2.induct with
  | case1 => simp [split2]
  | case2 rest ih => simp [split2]
  | case3 c rest h ih => simp [split2]

example : split2 "A\n\nB".data = ["A".data, "B".data] := by decide

example : split2 [] = [[]] := by decide

example : split2 "a\n\n\nb".data = ["a".data, ['\n', 'b']] := by decide

theorem replaceChar_append (c : Char) (r a b : List Char) :
    replaceChar c r (a ++ b) = replaceChar c r a ++ replaceChar c r b := by
  induction a with
  | nil => rfl
  | cons x xs ih => simp [replaceChar, ih]

theorem clean_text_append (a b : List Char) :
    clean_text (a ++ b) = clean_text a ++ clean_text b := by
  simp [clean_text, replaceChar_append]

theorem clean_text_single (x : Char) : clean_text [x] = normChar x := by
  by_cases h1 : x = '…'
  · subst h1; rfl
  by_cases h2 : x = '’'
  · subst h2; rfl
  by_cases h3 : x = '‘'
  · subst h3; rfl
  by_cases h4 : x = '“'
  · subst h4; rfl
  by_cases h5 : x = '”'
  · subst h5; rfl
  by_cases h6 : x = '—'
  · subst h6; rfl
  simp [clean_text, replaceChar, normChar, h1, h2, h3, h4, h5, h6]

theorem clean_text_eq_flat (s : List Char) :
    clean_text s = s.flatMap normChar := by
  induction s with
  | nil => rfl
  | cons x xs ih =>
    have hx : x :: xs = [x] ++ xs := rfl
    rw [hx, clean_text_append, clean_text_single, ih]
    simp

theorem glyph_not_mem_normChar {g x : Char} (hg : g ∈ glyphs) :
    g ∉ normChar x := by
  by_cases h1 : x = '…'
  · subst h1; fin_cases hg <;> decide
  by_cases h2 : x = '’'
  · subst h2; fin_cases hg <;> decide
  by_cases h3 : x = '‘'
  · subst h3; fin_cases hg <;> decide
  by_cases h4 : x = '“'
  · subst h4; fin_cases hg <;> decide
  by_cases h5 : x = '”'
  · subst h5; fin_cases hg <;> decide
  by_cases h6 : x = '—'
  · subst h6; fin_cases hg <;> decide
  simp only [normChar, h1, h2, h3, h4, h5, h6, if_false, List.mem_singleton]
  intro he
  subst he
  fin_cases hg <;> simp_all

theorem glyph_not_mem_clean_text {g : Char} (hg : g ∈ glyphs)
    (s : List Char) : g ∉ clean_text s := by
  rw [clean_text_eq_flat]
  intro hmem
  rcases List.mem_flatMap.mp hmem with ⟨x, _, hx⟩
  exact glyph_not_mem_normChar hg hx

theorem normChar_eq_self {x : Char} (h : x ∉ glyphs) : normChar x = [x] := by
  simp only [glyphs, List.mem_cons, not_or] at h
  obtain ⟨h1, h2, h3, h4, h5, h6, -⟩ := h
  simp [normChar, h1, h2, h3, h4, h5, h6]

theorem clean_text_eq_self {s : List Char}
    (h : ∀ g ∈ glyphs, g ∉ s) : clean_text s = s := by
  rw [clean_text_eq_flat]
  induction s with
  | nil => rfl
  | cons x xs ih =>
    rw [List.flatMap_cons, normChar_eq_self, List.singleton_append]
    · rw [ih (fun g hg hmem => h g hg (List.mem_cons_of_mem _ hmem))]
    · intro hx
      exact h x hx (List.mem_cons_self x xs)

theorem clean_text_idem (s : List Char) :
    clean_text (clean_text s) = clean_text s :=
  clean_text_eq_self (fun _ hg => glyph_not_mem_clean_text hg s)

example : clean_text "it’s “x”…—".data = "it's \"x\"...--".data := by decide

example : resolve_theme_color "LIGHT Blue".data = (204, 229, 255) := by decide

example : resolve_theme_color "magenta".data = (255, 255, 255) := by decide

theorem font_size_loop_spec (numLines : Nat → Nat) (max_height : ℚ) :
    ∀ size : Nat,
      (font_size_loop numLines max_height size).2 =
        ((font_size_loop numLines max_height size).1 : ℚ) * (9 / 20) ∧
      10 ≤ (font_size_loop numLines max_height size).1 ∧
      (font_size_loop numLines max_height size).1 ≤ max size 10 ∧
      (∀ s, 10 ≤ s → s ≤ size → fitsSize numLines max_height s →
        fitsSize numLines max_height (font_size_loop numLines max_height size).1 ∧
        s ≤ (font_size_loop numLines max_height size).1) ∧
      ((∀ s, 10 ≤ s → s ≤ size → ¬ fitsSize numLines max_height s) →
        (font_size_loop numLines max_height size).1 = 10) := by
  intro size
  induction size using Nat.strong_induction_on with
  | _ size ih =>
    by_cases h10 : 10 ≤ size
    · by_cases hfit : (numLines size : ℚ) * ((size : ℚ) * (9 / 20)) ≤ max_height
      · have heq : font_size_loop numLines max_height size =
            (size, (size : ℚ) * (9 / 20)) := by
          rw [font_size_loop]
          simp [h10, hfit]
        rw [heq]
        refine ⟨rfl, h10, le_max_left _ _, ?_, ?_⟩
        · intro s _ hs _
          exact ⟨hfit, hs⟩
        · intro hnone
          exact absurd hfit (hnone size h10 le_rfl)
      · have heq : font_size_loop numLines max_height size =
            font_size_loop numLines max_height (size - 1) := by
          rw [font_size_loop]
          simp [h10, hfit]
        rw [heq]
        have hlt : size - 1 < size := by omega
        obtain ⟨e1, e2, e3, e4, e5⟩ := ih (size - 1) hlt
        refine ⟨e1, e2, ?_, ?_, ?_⟩
        · rcases max_cases (size - 1) 10 with ⟨h, -⟩ | ⟨h, -⟩ <;>
            rcases max_cases size 10 with ⟨h2, -⟩ | ⟨h2, -⟩ <;> omega
        · intro s hs1 hs2 hsf
          have hsne : s ≠ size := by
            intro he
            exact hfit (he ▸ hsf)
          exact e4 s hs1 (by omega) hsf
        · intro hnone
          exact e5 (fun s hs1 hs2 => hnone s hs1 (by omega))
    · have heq : font_size_loop numLines max_height size =
          (10, (10 : ℚ) * (9 / 20)) := by
        rw [font_size_loop]
        simp [h10]
      rw [heq]
      refine ⟨rfl, le_rfl, le_max_right _ _, ?_, fun _ => rfl⟩
      intro s hs1 hs2 _
      omega

example : calculate_optimal_font_size (fun _ => 2) 20 = (18, 81 / 10) := by
  rw [calculate_optimal_font_size, font_size_loop]
  norm_num

example : (calculate_optimal_font_size (fun _ => 100) 20).1 = 10 := by
  rw [calculate_optimal_font_size]
  rw [font_size_loop]; norm_num
  rw [font_size_loop]; norm_num
  rw [font_size_loop]; norm_num
  rw [font_size_loop]; norm_num
  rw [font_size_loop]; norm_num
  rw [font_size_loop]; norm_num
  rw [font_size_loop]; norm_num
  rw [font_size_loop]; norm_num
  rw [font_size_loop]; norm_num
  rw [font_size_loop]
  norm_num

example : img_fit 130 800 600 = (130, 195 / 2) := by
  rw [img_fit]
  norm_num

example : img_fit 130 600 800 = (195 / 2, 130) := by
  rw [img_fit]
  norm_num

example : organic_name "temp_image_0.png".data = "organic_temp_image_0.png".data := by
  decide

example : organic_name "imgs/cat.png".data = "imgs/organic_cat.png".data := by
  decide

theorem beginsWithSeq_append (pat suf : List Char) :
    beginsWithSeq pat (pat ++ suf) = true := by
  induction pat with
  | nil => rfl
  | cons p ps ih => simp [beginsWithSeq, ih]

theorem containsSeq_of_append (pat pre suf : List Char) :
    containsSeq pat (pre ++ (pat ++ suf)) = true := by
  induction pre with
  | nil =>
    rw [List.nil_append]
    cases hp : pat ++ suf with
    | nil =>
      have hpat : pat = [] := by
        cases pat with
        | nil => rfl
        | cons x xs => simp at hp
      rw [hpat]
      rfl
    | cons c cs =>
      rw [containsSeq, ← hp, beginsWithSeq_append]
      rfl
  | cons c cs ih => simp [containsSeq, ih]

theorem andThen_ok (st : RenderState)
    (f : RenderState → Except RenderState RenderState) :
    andThen (.ok st) f = f st := rfl

theorem andThen_error (er : RenderState)
    (f : RenderState → Except RenderState RenderState) :
    andThen (.error er) f = .error er := rfl

theorem FS.set_self (fs : FS) (p : Path) (k : Option FileKind) :
    (fs.set p k) p = k := by
  simp [FS.set]

theorem FS.set_other (fs : FS) (p q : Path) (k : Option FileKind)
    (h : q ≠ p) : (fs.set p k) q = fs q := by
  simp [FS.set, h]

theorem containsSeq_organic (p : Path) :
    containsSeq "organic_".data (organic_name p) = true := by
  have h8 : ("organic_".data ++ pyBasename p).head? = some 'o' := by
    have : "organic_".data = 'o' :: "rganic_".data := rfl
    rw [this, List.cons_append, List.head?_cons]
  rw [organic_name, pyJoin, h8]
  have hne : ¬ (some 'o' = some '/') := by decide
  rw [if_neg hne]
  by_cases hd : pyDirname p = [] ∨ (pyDirname p).getLast? = some '/'
  · rw [if_pos hd]
    exact containsSeq_of_append _ _ _
  · rw [if_neg hd, List.append_cons, ← List.append_assoc]
    have := containsSeq_of_append "organic_".data
      ((pyDirname p ++ ['/'])) (pyBasename p)
    rw [← List.append_assoc] at this
    exact this

theorem mapCurrent_closed (p : PdfState) (f : PageContent → PageContent) :
    (mapCurrent p f).closed = p.closed := rfl

theorem mapCurrent_isSome (p : PdfState) (f : PageContent → PageContent) :
    (mapCurrent p f).current.isSome = p.current.isSome := by
  simp [mapCurrent]

theorem mapCurrent_attr (p : PdfState) (f : PageContent → PageContent) :
    (mapCurrent p f).pageCountAttr = p.pageCountAttr := rfl

/-- On a filesystem whose listed illustrations are all absent or
readable positive-size images, `place_image` succeeds, keeps the
page structure (apart from content drawn onto the open page), never
leaves a derived temp file behind, and neither corrupts nor degrades
any listed path. -/
theorem place_image_ok (il : List Path) (st : RenderState) (i : Nat)
    (hgood : ∀ p ∈ il, fileOkB (st.fs p) = true) :
    ∃ st', place_image st il[i]? = .ok st' ∧
      (∀ p ∈ il, fileOkB (st'.fs p) = true) ∧
      (∀ q, st'.fs q = some .corrupt → st.fs q = some .corrupt) ∧
      st'.pdf.closed = st.pdf.closed ∧
      st'.pdf.current.isSome = st.pdf.current.isSome ∧
      st'.pdf.pageCountAttr = st.pdf.pageCountAttr ∧
      (st.derived = [] → st'.derived = []) := by
  cases hidx : il[i]? with
  | none =>
    refine ⟨st, ?_, hgood, fun q hq => hq, rfl, rfl, rfl, fun h => h⟩
    simp [place_image]
  | some ip =>
    have hip : ip ∈ il := List.getElem?_mem hidx
    cases hfs : st.fs ip with
    | none =>
      refine ⟨st, ?_, hgood, fun q hq => hq, rfl, rfl, rfl, fun h => h⟩
      simp [place_image, hfs]
    | some k =>
      cases k with
      | corrupt =>
        have := hgood ip hip
        rw [hfs] at this
        simp [fileOkB] at this
      | image w h =>
        have hwh := hgood ip hip
        rw [hfs] at hwh
        simp only [fileOkB, Bool.and_eq_true, decide_eq_true_eq] at hwh
        have hw0 : ¬ (w = 0) := by omega
        have hsty : style_image_organic st ip =
            ({ st with fs := st.fs.set (organic_name ip) (some (.image w h)),
                       derived := st.derived ++ [organic_name ip] },
             organic_name ip) := by
          rw [style_image_organic, hfs]
        have hread : (st.fs.set (organic_name ip) (some (.image w h)))
            (organic_name ip) = some (.image w h) := FS.set_self _ _ _
        refine ⟨os_remove
            (draw_image_current
              { st with fs := st.fs.set (organic_name ip) (some (.image w h)),
                        derived := st.derived ++ [organic_name ip] }
              (organic_name ip,
               (img_place 35 15 5 130 (w : ℚ) (h : ℚ)).1,
               (img_place 35 15 5 130 (w : ℚ) (h : ℚ)).2,
               (img_fit 130 (w : ℚ) (h : ℚ)).1,
               (img_fit 130 (w : ℚ) (h : ℚ)).2))
            (organic_name ip), ?_, ?_, ?_, ?_, ?_, ?_, ?_⟩
        · rw [place_image]
          simp only [hfs, Option.isSome_some, if_true, hsty, hread, hw0,
            if_false, containsSeq_organic, if_true]
          rw [containsSeq_organic]
          simp
        · intro p hp
          simp only [os_remove, draw_image_current]
          by_cases hpt : p = organic_name ip
          · subst hpt
            rw [FS.set_self]
            rfl
          · rw [FS.set_other _ _ _ _ hpt, FS.set_other _ _ _ _ hpt]
            exact hgood p hp
        · intro q hq
          simp only [os_remove, draw_image_current] at hq
          by_cases hqt : q = organic_name ip
          · subst hqt
            rw [FS.set_self] at hq
            exact absurd hq (by simp)
          · rw [FS.set_other _ _ _ _ hqt, FS.set_other _ _ _ _ hqt] at hq
            exact hq
        · simp [os_remove, draw_image_current, mapCurrent]
        · simp [os_remove, draw_image_current, mapCurrent]
        · simp [os_remove, draw_image_current, mapCurrent]
        · intro hd
          simp [os_remove, draw_image_current, hd]

theorem add_page_closed_length (p : PdfState) :
    (add_page p).closed.length =
      p.closed.length + (if p.current.isSome then 1 else 0) := by
  cases hc : p.current <;> simp [add_page, closeCurrent, hc]

theorem add_page_isSome (p : PdfState) : (add_page p).current.isSome = true :=
  rfl

theorem add_page_attr (p : PdfState) :
    (add_page p).pageCountAttr = p.pageCountAttr := by
  cases hc : p.current <;> simp [add_page, closeCurrent, hc]

/-- One story-page iteration succeeds on a good filesystem and closes
exactly one more page. -/
theorem render_story_page_ok (wrap : Nat → List Char → Nat) (il : List Path)
    (i : Nat) (t : List Char) (st : RenderState)
    (hgood : ∀ p ∈ il, fileOkB (st.fs p) = true)
    (hcur : st.pdf.current.isSome = true) :
    ∃ st', render_story_page wrap il i t st = .ok st' ∧
      (∀ p ∈ il, fileOkB (st'.fs p) = true) ∧
      (∀ q, st'.fs q = some .corrupt → st.fs q = some .corrupt) ∧
      st'.pdf.closed.length = st.pdf.closed.length + 1 ∧
      st'.pdf.current.isSome = true ∧
      st'.pdf.pageCountAttr = st.pdf.pageCountAttr ∧
      (st.derived = [] → st'.derived = []) := by
  obtain ⟨st2, hpl, hg2, hcor2, hcl2, hcur2, hattr2, hder2⟩ :=
    place_image_ok il { st with pdf := add_page st.pdf } i hgood
  refine ⟨draw_text_current st2
      (t, (calculate_optimal_font_size (fun s => wrap s t) 40).1,
          (calculate_optimal_font_size (fun s => wrap s t) 40).2), ?_,
    hg2, hcor2, ?_, ?_, ?_, hder2⟩
  · rw [render_story_page, hpl]
  · simp only [draw_text_current, mapCurrent_closed, hcl2,
      add_page_closed_length, hcur, if_true]
  · simp only [draw_text_current, mapCurrent_isSome, hcur2, add_page_isSome]
  · simp only [draw_text_current, mapCurrent_attr, hattr2, add_page_attr]

/-- The story-page loop succeeds on a good filesystem, closing one
page per segment, preserving the attribute and leaving no derived
temp file. -/
theorem render_pages_ok (wrap : Nat → List Char → Nat) (il : List Path) :
    ∀ (ts : List (List Char)) (i : Nat) (st : RenderState),
      (∀ p ∈ il, fileOkB (st.fs p) = true) →
      st.pdf.current.isSome = true →
      ∃ st', render_pages wrap il i ts st = .ok st' ∧
        (∀ p ∈ il, fileOkB (st'.fs p) = true) ∧
        (∀ q, st'.fs q = some .corrupt → st.fs q = some .corrupt) ∧
        st'.pdf.closed.length = st.pdf.closed.length + ts.length ∧
        st'.pdf.current.isSome = true ∧
        st'.pdf.pageCountAttr = st.pdf.pageCountAttr ∧
        (st.derived = [] → st'.derived = []) := by
  intro ts
  induction ts with
  | nil =>
    intro i st hgood hcur
    exact ⟨st, rfl, hgood, fun q hq => hq, by simp, hcur, rfl, fun h => h⟩
  | cons t ts ih =>
    intro i st hgood hcur
    obtain ⟨st1, h1, hg1, hcor1, hcl1, hcur1, hattr1, hder1⟩ :=
      render_story_page_ok wrap il i t st hgood hcur
    obtain ⟨st2, h2, hg2, hcor2, hcl2, hcur2, hattr2, hder2⟩ :=
      ih (i + 1) st1 hg1 hcur1
    refine ⟨st2, ?_, hg2, fun q hq => hcor1 q (hcor2 q hq), ?_, hcur2,
      by rw [hattr2, hattr1], fun hd => hder2 (hder1 hd)⟩
    · rw [render_pages, h1]
      exact h2
    · rw [hcl2, hcl1]
      simp only [List.length_cons]
      omega

/-- The cover background never fails when the cover path is not a
corrupt file, and only draws onto the open page. -/
theorem draw_cover_ok (st : RenderState) (c : Option Path)
    (hc : coverOkB st.fs c = true) :
    ∃ st', draw_cover_background st c = .ok st' ∧ st'.fs = st.fs ∧
      st'.derived = st.derived ∧ st'.pdf.closed = st.pdf.closed ∧
      st'.pdf.current.isSome = st.pdf.current.isSome ∧
      st'.pdf.pageCountAttr = st.pdf.pageCountAttr := by
  cases c with
  | none => exact ⟨st, rfl, rfl, rfl, rfl, rfl, rfl⟩
  | some p =>
    by_cases he : p.isEmpty
    · refine ⟨st, ?_, rfl, rfl, rfl, rfl, rfl⟩
      simp [draw_cover_background, he]
    · cases hfs : st.fs p with
      | none =>
        refine ⟨st, ?_, rfl, rfl, rfl, rfl, rfl⟩
        simp [draw_cover_background, hfs]
      | some k =>
        cases k with
        | corrupt =>
          simp only [coverOkB, hfs, he, Bool.false_or, decide_eq_true_eq,
            Bool.not_eq_eq_eq_not, Bool.not_true, decide_eq_false_iff_not] at hc
          exact absurd trivial hc
        | image w h =>
          refine ⟨draw_image_current st (p, 0, 0, 210, 210), ?_, rfl, rfl,
            mapCurrent_closed _ _, mapCurrent_isSome _ _, mapCurrent_attr _ _⟩
          rw [draw_cover_background]
          simp only [hfs, Option.isSome_some, Bool.and_true, he]
          simp [he]

theorem coverOkB_mono {fs fs' : FS}
    (hmono : ∀ q, fs' q = some .corrupt → fs q = some .corrupt)
    {c : Option Path} (hc : coverOkB fs c = true) : coverOkB fs' c = true := by
  cases c with
  | none => rfl
  | some p =>
    simp only [coverOkB, Bool.or_eq_true, Bool.not_eq_eq_eq_not, Bool.not_true,
      decide_eq_false_iff_not] at hc ⊢
    rcases hc with hc | hc
    · exact Or.inl hc
    · exact Or.inr (fun hq => hc (hmono p hq))

theorem closeCurrent_closed_length (p : PdfState) :
    (closeCurrent p).closed.length =
      p.closed.length + (if p.current.isSome then 1 else 0) := by
  cases hc : p.current <;> simp [closeCurrent, hc]

theorem closeCurrent_attr (p : PdfState) :
    (closeCurrent p).pageCountAttr = p.pageCountAttr := by
  cases hc : p.current <;> simp [closeCurrent, hc]

/-- The front cover stage succeeds when the cover path is not
corrupt, adds one page and draws only onto it. -/
theorem front_cover_ok (a : PdfArgs) (st : RenderState)
    (hc : coverOkB st.fs a.cover_image_path = true) :
    ∃ st', front_cover a st = .ok st' ∧ st'.fs = st.fs ∧
      st'.derived = st.derived ∧
      st'.pdf.closed.length =
        st.pdf.closed.length + (if st.pdf.current.isSome then 1 else 0) ∧
      st'.pdf.current.isSome = true ∧
      st'.pdf.pageCountAttr = st.pdf.pageCountAttr := by
  obtain ⟨st2, hdc, hfs2, hder2, hcl2, hcur2, hattr2⟩ :=
    draw_cover_ok { st with pdf := add_page st.pdf } a.cover_image_path hc
  refine ⟨draw_text_current st2 (a.title, 42, 16), ?_, hfs2, hder2, ?_, ?_, ?_⟩
  · rw [front_cover, hdc]
  · rw [draw_text_current, mapCurrent_closed, hcl2]
    have : (add_page st.pdf).closed.length =
        st.pdf.closed.length + (if st.pdf.current.isSome then 1 else 0) :=
      add_page_closed_length st.pdf
    exact this
  · rw [draw_text_current, mapCurrent_isSome, hcur2]
    exact add_page_isSome st.pdf
  · rw [draw_text_current, mapCurrent_attr, hattr2]
    exact add_page_attr st.pdf

/-- The back cover stage succeeds when the cover path is not corrupt,
adding one page exactly when the end message is nonempty. -/
theorem back_cover_ok (a : PdfArgs) (st : RenderState)
    (hc : coverOkB st.fs a.cover_image_path = true)
    (hcur : st.pdf.current.isSome = true) :
    ∃ st', back_cover a st = .ok st' ∧ st'.fs = st.fs ∧
      st'.derived = st.derived ∧
      st'.pdf.closed.length =
        st.pdf.closed.length + (if a.end_message.isEmpty then 0 else 1) ∧
      st'.pdf.current.isSome = true ∧
      st'.pdf.pageCountAttr = st.pdf.pageCountAttr := by
  by_cases hend : a.end_message.isEmpty
  · refine ⟨st, ?_, rfl, rfl, ?_, hcur, rfl⟩
    · rw [back_cover, if_pos hend]
    · rw [if_pos hend]
      omega
  · obtain ⟨st5, hdc, hfs5, hder5, hcl5, hcur5, hattr5⟩ :=
      draw_cover_ok { st with pdf := add_page st.pdf } a.cover_image_path hc
    refine ⟨draw_text_current st5 (a.end_message, 24, 10), ?_, hfs5, hder5,
      ?_, ?_, ?_⟩
    · rw [back_cover, if_neg hend]
      simp only [hdc]
    · rw [draw_text_current, mapCurrent_closed, hcl5, if_neg hend]
      have := add_page_closed_length st.pdf
      rw [hcur, if_pos rfl] at this
      exact this
    · rw [draw_text_current, mapCurrent_isSome, hcur5]
      exact add_page_isSome st.pdf
    · rw [draw_text_current, mapCurrent_attr, hattr5]
      exact add_page_attr st.pdf

theorem finalize_output_ok (a : PdfArgs) (st : RenderState)
    (hout : a.out_ok = true) :
    finalize_output a st = .ok (finalizeState st) := by
  rw [finalize_output, finalizeState]
  simp [hout]

/-- Main success lemma for `create_pdf`: when every listed
illustration path is absent or a readable positive-size image, the
cover path is not corrupt, and the output write succeeds, the run
returns `True` and closes exactly `1 + k + (1 if end_message else 0)`
pages for `k` story segments, leaving no derived temp file on disk. -/
theorem create_pdf_ok (a : PdfArgs)
    (himg : ∀ p ∈ a.image_list, fileOkB (a.fs0 p) = true)
    (hcov : coverOkB a.fs0 a.cover_image_path = true)
    (hout : a.out_ok = true) :
    (create_pdf a).1 = true ∧
    (create_pdf a).2.pdf.closed.length =
      1 + (split2 a.story_text).length +
        (if a.end_message.isEmpty then 0 else 1) ∧
    (create_pdf a).2.derived = [] := by
  obtain ⟨st2, h2, hfs2, hder2, hcl2, hcur2, hattr2⟩ :=
    front_cover_ok a
      { pdf := { closed := [], current := none, pageCountAttr := 0 },
        fs := a.fs0, derived := [],
        themeRGB := resolve_theme_color a.theme_color } hcov
  have hg2 : ∀ p ∈ a.image_list, fileOkB (st2.fs p) = true := by
    intro p hp
    rw [hfs2]
    exact himg p hp
  obtain ⟨st3, h3, hg3, hcor3, hcl3, hcur3, hattr3, hder3⟩ :=
    render_pages_ok a.wrap a.image_list (split2 a.story_text) 0 st2 hg2 hcur2
  have hc2 : coverOkB st2.fs a.cover_image_path = true := by
    rw [hfs2]
    exact hcov
  have hc3 : coverOkB st3.fs a.cover_image_path = true :=
    coverOkB_mono hcor3 hc2
  obtain ⟨st6, h6, hfs6, hder6, hcl6, hcur6, hattr6⟩ :=
    back_cover_ok a st3 hc3 hcur3
  have hrun : create_pdf_run a = .ok (finalizeState st6) := by
    rw [create_pdf_run]
    simp only [h2, andThen_ok, h3, h6, finalize_output_ok a st6 hout]
  have hres : create_pdf a = (true, finalizeState st6) := by
    rw [create_pdf, hrun]
  rw [hres]
  refine ⟨rfl, ?_, ?_⟩
  · have hfin : (finalizeState st6).pdf.closed.length =
        st6.pdf.closed.length + 1 := by
      rw [finalizeState]
      simp only [closeCurrent_closed_length]
      simp [hcur6]
    have hd2 : st2.pdf.closed.length = 0 := by
      rw [hcl2]
      rfl
    by_cases hEnd : a.end_message.isEmpty <;>
      simp only [hEnd, if_true, if_false] at hcl6 ⊢ <;>
      omega
  · show (finalizeState st6).derived = []
    have : (finalizeState st6).derived = st6.derived := rfl
    rw [this, hder6]
    refine hder3 ?_
    rw [hder2]

/-! ## No derived temp file survives, even across failures -/

/-- `place_image` on a filesystem with no zero-width listed image:
whether it succeeds or raises, it leaves no derived temp file behind
(the masked copy is deleted right after being drawn, and the raise
points lie before the copy is created or after it is deleted). -/
theorem place_image_width (il : List Path) (st : RenderState) (i : Nat)
    (hw : ∀ p ∈ il, widthOkB (st.fs p) = true) (hd : st.derived = []) :
    (match place_image st il[i]? with
     | .ok st' => st'.derived = [] ∧ (∀ p ∈ il, widthOkB (st'.fs p) = true)
     | .error e => e.derived = []) := by
  cases hidx : il[i]? with
  | none =>
    simp only [place_image]
    exact ⟨hd, hw⟩
  | some ip =>
    have hip : ip ∈ il := List.getElem?_mem hidx
    cases hfs : st.fs ip with
    | none =>
      rw [place_image]
      simp only [hfs, Option.isSome_none, Bool.false_eq_true, if_false]
      exact ⟨hd, hw⟩
    | some k =>
      cases k with
      | corrupt =>
        have hsty : style_image_organic st ip = (st, ip) := by
          rw [style_image_organic, hfs]
        rw [place_image]
        simp only [hfs, Option.isSome_some, if_true, hsty, hfs]
        exact hd
      | image w h =>
        have hwip := hw ip hip
        rw [hfs] at hwip
        simp only [widthOkB, decide_eq_true_eq] at hwip
        have hw0 : ¬ (w = 0) := by omega
        have hsty : style_image_organic st ip =
            ({ st with fs := st.fs.set (organic_name ip) (some (.image w h)),
                       derived := st.derived ++ [organic_name ip] },
             organic_name ip) := by
          rw [style_image_organic, hfs]
        have hread : (st.fs.set (organic_name ip) (some (.image w h)))
            (organic_name ip) = some (.image w h) := FS.set_self _ _ _
        rw [place_image]
        simp only [hfs, Option.isSome_some, if_true, hsty, hread, hw0,
          if_false]
        rw [containsSeq_organic]
        simp only [if_true]
        constructor
        · simp [os_remove, draw_image_current, hd]
        · intro p hp
          simp only [os_remove, draw_image_current]
          by_cases hpt : p = organic_name ip
          · subst hpt
            rw [FS.set_self]
            rfl
          · rw [FS.set_other _ _ _ _ hpt, FS.set_other _ _ _ _ hpt]
            exact hw p hp

/-- One story-page iteration leaves no derived temp file, succeeding
or not. -/
theorem render_story_page_width (wrap : Nat → List Char → Nat)
    (il : List Path) (i : Nat) (t : List Char) (st : RenderState)
    (hw : ∀ p ∈ il, widthOkB (st.fs p) = true) (hd : st.derived = []) :
    (match render_story_page wrap il i t st with
     | .ok st' => st'.derived = [] ∧ (∀ p ∈ il, widthOkB (st'.fs p) = true)
     | .error e => e.derived = []) := by
  have hpl := place_image_width il { st with pdf := add_page st.pdf } i hw hd
  rw [render_story_page]
  cases hres : place_image { st with pdf := add_page st.pdf } il[i]? with
  | error e =>
    rw [hres] at hpl
    exact hpl
  | ok st2 =>
    rw [hres] at hpl
    exact hpl

/-- The story-page loop leaves no derived temp file, succeeding or
not. -/
theorem render_pages_width (wrap : Nat → List Char → Nat) (il : List Path) :
    ∀ (ts : List (List Char)) (i : Nat) (st : RenderState),
      (∀ p ∈ il, widthOkB (st.fs p) = true) → st.derived = [] →
      (match render_pages wrap il i ts st with
       | .ok st' => st'.derived = [] ∧ (∀ p ∈ il, widthOkB (st'.fs p) = true)
       | .error e => e.derived = []) := by
  intro ts
  induction ts with
  | nil =>
    intro i st hw hd
    exact ⟨hd, hw⟩
  | cons t rest ih =>
    intro i st hw hd
    have hstep := render_story_page_width wrap il i t st hw hd
    rw [render_pages]
    cases hres : render_story_page wrap il i t st with
    | error e =>
      rw [hres] at hstep
      exact hstep
    | ok st1 =>
      rw [hres] at hstep
      exact ih (i + 1) st1 hstep.2 hstep.1

/-- Whatever the cover stage does, it leaves the filesystem and the
derived-file list untouched. -/
theorem draw_cover_background_effects (st : RenderState) (c : Option Path) :
    (match draw_cover_background st c with
     | .ok s => s.derived = st.derived ∧ s.fs = st.fs
     | .error e => e.derived = st.derived ∧ e.fs = st.fs) := by
  cases c with
  | none => exact ⟨rfl, rfl⟩
  | some p =>
    rw [draw_cover_background]
    by_cases hcond : (!p.isEmpty && (st.fs p).isSome) = true
    · rw [if_pos hcond]
      cases hfs : st.fs p with
      | none => exact ⟨rfl, rfl⟩
      | some k =>
        cases k with
        | image w h => exact ⟨rfl, rfl⟩
        | corrupt => exact ⟨rfl, rfl⟩
    · rw [if_neg hcond]
      exact ⟨rfl, rfl⟩

/-- The front-cover stage leaves the filesystem and the derived-file
list untouched. -/
theorem front_cover_effects (a : PdfArgs) (st : RenderState) :
    (match front_cover a st with
     | .ok s => s.derived = st.derived ∧ s.fs = st.fs
     | .error e => e.derived = st.derived ∧ e.fs = st.fs) := by
  rw [front_cover]
  have hdc := draw_cover_background_effects
    { st with pdf := add_page st.pdf } a.cover_image_path
  cases hres : draw_cover_background { st with pdf := add_page st.pdf }
      a.cover_image_path with
  | error e =>
    simp only [hres] at hdc
    exact hdc
  | ok s2 =>
    simp only [hres] at hdc
    exact hdc

theorem back_cover_effects (a : PdfArgs) (st : RenderState) :
    (match back_cover a st with
     | .ok s => s.derived = st.derived
     | .error e => e.derived = st.derived) := by
  rw [back_cover]
  by_cases hend : a.end_message.isEmpty
  · simp only [hend, if_true]
  · simp only [hend, if_false]
    have hdc := draw_cover_background_effects
      { st with pdf := add_page st.pdf } a.cover_image_path
    cases hres : draw_cover_background { st with pdf := add_page st.pdf }
        a.cover_image_path with
    | error e =>
      rw [hres] at hdc
      exact hdc.1
    | ok st5 =>
      rw [hres] at hdc
      exact hdc.1

/-- `create_pdf` never leaves a derived `organic_` temp copy on disk,
whether the run succeeds or fails, as long as no listed image file has
zero width (PIL cannot produce one). -/
theorem create_pdf_no_derived (a : PdfArgs)
    (hw : ∀ p ∈ a.image_list, widthOkB (a.fs0 p) = true) :
    (create_pdf a).2.derived = [] := by
  simp only [create_pdf, create_pdf_run]
  have hfc := front_cover_effects a
    { pdf := { closed := [], current := none, pageCountAttr := 0 },
      fs := a.fs0, derived := [],
      themeRGB := resolve_theme_color a.theme_color }
  cases hres1 : front_cover a
      { pdf := { closed := [], current := none, pageCountAttr := 0 },
        fs := a.fs0, derived := [],
        themeRGB := resolve_theme_color a.theme_color } with
  | error e =>
    simp only [hres1] at hfc
    simp only [hres1, andThen_error]
    exact hfc.1
  | ok st2 =>
    simp only [hres1] at hfc
    simp only [hres1, andThen_ok]
    have hw2 : ∀ p ∈ a.image_list, widthOkB (st2.fs p) = true := by
      intro p hp
      rw [hfc.2]
      exact hw p hp
    have hd2 : st2.derived = [] := hfc.1
    have hrp := render_pages_width a.wrap a.image_list (split2 a.story_text)
      0 st2 hw2 hd2
    cases hres2 : render_pages a.wrap a.image_list 0 (split2 a.story_text)
        st2 with
    | error e =>
      simp only [hres2] at hrp
      simp only [hres2, andThen_error]
      exact hrp
    | ok st3 =>
      simp only [hres2] at hrp
      simp only [hres2, andThen_ok]
      have hbc := back_cover_effects a st3
      cases hres3 : back_cover a st3 with
      | error e =>
        simp only [hres3] at hbc
        simp only [hres3, andThen_error]
        rw [hbc]
        exact hrp.1
      | ok st6 =>
        simp only [hres3] at hbc
        simp only [hres3, andThen_ok]
        rw [finalize_output]
        cases hout : a.out_ok with
        | true =>
          simp only [if_true]
          show st6.derived = []
          rw [hbc]
          exact hrp.1
        | false =>
          simp only [Bool.false_eq_true, if_false]
          show st6.derived = []
          rw [hbc]
          exact hrp.1

theorem andThen_eq_ok {e : Except RenderState RenderState}
    {f : RenderState → Except RenderState RenderState} {st : RenderState}
    (h : andThen e f = .ok st) : ∃ x, e = .ok x ∧ f x = .ok st := by
  cases e with
  | error er => simp [andThen] at h
  | ok x => exact ⟨x, rfl, h⟩

/-- A successful run implies the output write succeeded. -/
theorem create_pdf_run_ok_out (a : PdfArgs) (st : RenderState)
    (h : create_pdf_run a = .ok st) : a.out_ok = true := by
  rw [create_pdf_run] at h
  obtain ⟨x1, h1, h⟩ := andThen_eq_ok h
  obtain ⟨x2, h2, h⟩ := andThen_eq_ok h
  obtain ⟨x3, h3, h⟩ := andThen_eq_ok h
  rw [finalize_output] at h
  cases hout : a.out_ok with
  | true => rfl
  | false =>
    rw [hout] at h
    simp at h

/-! ## The claims -/

/-- C1: for a story text with `k` double-newline-delimited segments
and an image-path list of length `m ≤ k` whose paths may be missing
on disk, `create_pdf` never crashes, succeeds, and the page count is
`1 (cover) + k + (1 if the end message is nonempty else 0)`. -/
theorem C1_interior_page_count (a : PdfArgs)
    (_hm : a.image_list.length ≤ (split2 a.story_text).length)
    (himg : ∀ p ∈ a.image_list, fileOkB (a.fs0 p) = true)
    (hcov : coverOkB a.fs0 a.cover_image_path = true)
    (hout : a.out_ok = true) :
    (create_pdf a).1 = true ∧
    (create_pdf a).2.pdf.closed.length =
      1 + (split2 a.story_text).length +
        (if a.end_message.isEmpty then 0 else 1) := by
  have h := create_pdf_ok a himg hcov hout
  exact ⟨h.1, h.2.1⟩

/-- C1 witness: 2 segments, one existing and one missing image path,
a cover image and an end message give a successful 4-page result. -/
theorem C1_interior_page_count_witness :
    (create_pdf exampleArgs).1 = true ∧
    (create_pdf exampleArgs).2.pdf.closed.length = 4 := by
  have h := C1_interior_page_count exampleArgs (by decide) (by decide)
    (by decide) rfl
  refine ⟨h.1, ?_⟩
  rw [h.2]
  decide

/-- C2: `calculate_optimal_font_size` returns the largest size in
`18, 17, ..., 10` whose estimated block height (wrapped line count
times `size * 0.45`) fits the available height, with line height
`size * 0.45`, and returns the minimum 10 when no candidate fits. -/
theorem C2_font_size_search (numLines : Nat → Nat) (max_height : ℚ) :
    (calculate_optimal_font_size numLines max_height).2 =
      ((calculate_optimal_font_size numLines max_height).1 : ℚ) * (9 / 20) ∧
    10 ≤ (calculate_optimal_font_size numLines max_height).1 ∧
    (calculate_optimal_font_size numLines max_height).1 ≤ 18 ∧
    (∀ s, 10 ≤ s → s ≤ 18 → fitsSize numLines max_height s →
      fitsSize numLines max_height
        (calculate_optimal_font_size numLines max_height).1 ∧
      s ≤ (calculate_optimal_font_size numLines max_height).1) ∧
    ((∀ s, 10 ≤ s → s ≤ 18 → ¬ fitsSize numLines max_height s) →
      (calculate_optimal_font_size numLines max_height).1 = 10) := by
  obtain ⟨e1, e2, e3, e4, e5⟩ := font_size_loop_spec numLines max_height 18
  have hmax : max 18 10 = 18 := rfl
  rw [hmax] at e3
  exact ⟨e1, e2, e3, e4, e5⟩

/-- C2 witness: with 2 wrapped lines at every size and 20 units of
space, size 18 fits and is chosen. -/
theorem C2_font_size_search_witness :
    (calculate_optimal_font_size (fun _ => 2) 20).1 = 18 := by
  have h := C2_font_size_search (fun _ => 2) 20
  have hfit : fitsSize (fun _ => 2) 20 18 := by
    rw [fitsSize]
    norm_num
  have h18 := (h.2.2.2.1 18 (by norm_num) le_rfl hfit).2
  have hle := h.2.2.1
  omega

/-- C3: for positive pixel dimensions and a positive available square
side, the fitted size preserves the aspect ratio, fits in the square,
touches it in at least one dimension, and the placement centres the
image in the padded frame on both axes. -/
theorem C3_aspect_fit (M w h fx fy pad : ℚ)
    (hM : 0 < M) (hw : 0 < w) (hh : 0 < h) :
    (img_fit M w h).1 / (img_fit M w h).2 = w / h ∧
    (img_fit M w h).1 ≤ M ∧
    (img_fit M w h).2 ≤ M ∧
    ((img_fit M w h).1 = M ∨ (img_fit M w h).2 = M) ∧
    (img_place fx fy pad M w h).1 + (img_fit M w h).1 / 2 =
      fx + pad + M / 2 ∧
    (img_place fx fy pad M w h).2 + (img_fit M w h).2 / 2 =
      fy + pad + M / 2 := by
  have hw0 : w ≠ 0 := ne_of_gt hw
  have hh0 : h ≠ 0 := ne_of_gt hh
  have hM0 : M ≠ 0 := ne_of_gt hM
  by_cases har : 1 < h / w
  · have hfit : img_fit M w h = (M / (h / w), M) := by
      rw [img_fit]
      simp [har]
    have hr0 : h / w ≠ 0 := by positivity
    refine ⟨?_, ?_, ?_, ?_, ?_, ?_⟩
    · rw [hfit]
      field_simp
      ring
    · rw [hfit]
      exact div_le_self (le_of_lt hM) (le_of_lt har)
    · rw [hfit]
    · rw [hfit]
      exact Or.inr rfl
    · rw [img_place, hfit]
      ring
    · rw [img_place, hfit]
      ring
  · have har1 : h / w ≤ 1 := le_of_not_lt har
    have hfit : img_fit M w h = (M, M * (h / w)) := by
      rw [img_fit]
      simp [har]
    have hr0 : h / w ≠ 0 := by positivity
    refine ⟨?_, ?_, ?_, ?_, ?_, ?_⟩
    · rw [hfit]
      field_simp
      ring
    · rw [hfit]
    · rw [hfit]
      exact mul_le_of_le_one_right (le_of_lt hM) har1
    · rw [hfit]
      exact Or.inl rfl
    · rw [img_place, hfit]
      ring
    · rw [img_place, hfit]
      ring

/-- C3 witness: a landscape 800 x 600 image in the 130-unit square at
the frame geometry of `create_pdf`. -/
theorem C3_aspect_fit_witness :
    (img_fit 130 800 600).1 / (img_fit 130 800 600).2 = 800 / 600 ∧
    (img_fit 130 800 600).1 ≤ 130 ∧
    (img_fit 130 800 600).2 ≤ 130 ∧
    ((img_fit 130 800 600).1 = 130 ∨ (img_fit 130 800 600).2 = 130) ∧
    (img_place 35 15 5 130 800 600).1 + (img_fit 130 800 600).1 / 2 =
      35 + 5 + 130 / 2 ∧
    (img_place 35 15 5 130 800 600).2 + (img_fit 130 800 600).2 / 2 =
      15 + 5 + 130 / 2 :=
  C3_aspect_fit 130 800 600 35 15 5 (by norm_num) (by norm_num) (by norm_num)

/-- C4 counterexample: with a valid key and story, a cover request
that throws, and working illustration calls, `main` does not exit;
the exception is caught inside `get_cover_image`, which returns
`None`, and the pipeline runs to completion. -/
theorem C4_counterexample :
    pipeline true (.ok "A\n\nB".data) (.error ()) true
      (fun _ => .ok none) true = .finished true ∧
    MainResult.finished true ≠ MainResult.exited 1 := by
  constructor
  · rfl
  · decide

/-- C4 (amended): an exception thrown by the cover or illustration
request is caught inside the respective client — the cover client
returns `None` and the illustration client returns the images
accumulated so far — and the orchestrator continues to PDF assembly;
`main` exits with status 1 only when an exception escapes a client
into its handler, as the story client's re-raise does. -/
theorem C4_client_catches_api_failure :
    (∀ (storyText : List Char) (coverApi : Except Unit (Option ImgData))
       (cwk : Bool) (imagesApi : Nat → Except Unit (Option ImgData))
       (pdf_ok : Bool),
       pipeline true (.ok storyText) coverApi cwk imagesApi pdf_ok =
         .finished pdf_ok) ∧
    (∀ (coverApi : Except Unit (Option ImgData)) (cwk : Bool),
       get_cover_image true coverApi cwk = none ∨
       ∃ d, coverApi = .ok (some d) ∧ cwk = true ∧
         get_cover_image true coverApi cwk =
           some ("cover_pattern.".data ++ d.mime_sub)) ∧
    (∀ c i b, main_model (.error ()) c i b = .exited 1) ∧
    (∀ s i b, main_model (.ok s) (.error ()) i b = .exited 1) ∧
    (∀ s c b, main_model (.ok s) (.ok c) (.error ()) b = .exited 1) := by
  refine ⟨?_, ?_, ?_, ?_, ?_⟩
  · intro storyText coverApi cwk imagesApi pdf_ok
    rfl
  · intro coverApi cwk
    cases coverApi with
    | error e => exact Or.inl rfl
    | ok o =>
      cases o with
      | none => exact Or.inl rfl
      | some d =>
        cases cwk with
        | false => exact Or.inl rfl
        | true => exact Or.inr ⟨d, rfl, rfl, rfl⟩
  · intro c i b
    rfl
  · intro s i b
    rfl
  · intro s c b
    rfl

/-- C5: `create_pdf` returns a boolean for every input — the `.error`
of the body is caught and surfaced as `False`, and `True` is returned
exactly when the whole document was assembled and written (in
particular only when the output write succeeded). -/
theorem C5_no_exception_escapes (a : PdfArgs) :
    ((∃ st, create_pdf_run a = .ok st ∧ create_pdf a = (true, st)) ∨
     (∃ st, create_pdf_run a = .error st ∧ create_pdf a = (false, st))) ∧
    ((create_pdf a).1 = true → a.out_ok = true) := by
  constructor
  · cases hr : create_pdf_run a with
    | ok st =>
      refine Or.inl ⟨st, rfl, ?_⟩
      rw [create_pdf, hr]
    | error st =>
      refine Or.inr ⟨st, rfl, ?_⟩
      rw [create_pdf, hr]
  · intro htrue
    cases hr : create_pdf_run a with
    | ok st => exact create_pdf_run_ok_out a st hr
    | error st =>
      rw [create_pdf, hr] at htrue
      simp at htrue

/-- C5 witness: the example run reports `True`, so by the theorem its
output write must have succeeded. -/
theorem C5_no_exception_escapes_witness : exampleArgsPlain.out_ok = true :=
  (C5_no_exception_escapes exampleArgsPlain).2 (by decide)

/-- C6: the code never draws a page number.  On the 4-page example
document (cover, two story pages, back cover) every page's footer is
empty: interior pages close while `_page_count` is still 0, so
`page_no() < self.page_count` fails, and the last page closes with
`_page_count = page_no()`, so the strict bound fails there too.  The
claim expects footers `1` and `2` on the two interior pages. -/
theorem C6_no_footer_rendered :
    (create_pdf exampleArgsPlain).1 = true ∧
    (create_pdf exampleArgsPlain).2.pdf.closed.length = 4 ∧
    (create_pdf exampleArgsPlain).2.pdf.closed.map
      (fun pg => pg.footerNum) = [none, none, none, none] := by
  decide

/-- C7: the normalization of `get_story_from_gemini` is idempotent,
leaves no ellipsis, curly quote or em-dash glyph in its output, and
changes nothing on glyph-free text. -/
theorem C7_normalization (s : List Char) :
    get_story_from_gemini true (.ok s) = .ok (clean_text s) ∧
    clean_text (clean_text s) = clean_text s ∧
    (∀ g ∈ glyphs, g ∉ clean_text s) ∧
    ((∀ g ∈ glyphs, g ∉ s) → clean_text s = s) :=
  ⟨rfl, clean_text_idem s, fun _ hg => glyph_not_mem_clean_text hg s,
   fun h => clean_text_eq_self h⟩

/-- C7 witness: a text with an em-dash normalizes to ASCII and stays
fixed under a second pass. -/
theorem C7_normalization_witness :
    clean_text "a—b".data = "a--b".data ∧
    clean_text (clean_text "a—b".data) = clean_text "a—b".data ∧
    clean_text "abc".data = "abc".data := by
  refine ⟨by decide, (C7_normalization "a—b".data).2.1,
    (C7_normalization "abc".data).2.2.2 ?_⟩
  decide

/-- C8: the resolved background RGB equals the table entry for the
lowercased name when one exists, equals white otherwise, and depends
only on the lowercased name (case-insensitive matching). -/
theorem C8_theme_color (t : List Char) :
    (∀ c, List.lookup (pyLower t) COLOR_MAP = some c →
      resolve_theme_color t = c) ∧
    (List.lookup (pyLower t) COLOR_MAP = none →
      resolve_theme_color t = (255, 255, 255)) ∧
    (∀ t2 : List Char, pyLower t = pyLower t2 →
      resolve_theme_color t = resolve_theme_color t2) := by
  refine ⟨?_, ?_, ?_⟩
  · intro c hc
    rw [resolve_theme_color, hc]
    rfl
  · intro hc
    rw [resolve_theme_color, hc]
    rfl
  · intro t2 hlow
    rw [resolve_theme_color, resolve_theme_color, hlow]

/-- C8 witness: a recognized name matches case-insensitively and an
unknown name falls back to white. -/
theorem C8_theme_color_witness :
    resolve_theme_color "LIGHT BLUE".data = (204, 229, 255) ∧
    resolve_theme_color "magenta".data = (255, 255, 255) :=
  ⟨(C8_theme_color "LIGHT BLUE".data).1 _ (by decide),
   (C8_theme_color "magenta".data).2.1 (by decide)⟩

/-- C9: the derived `organic_` masked copy of every drawn
illustration is deleted right after being drawn, and no derived temp
file remains on disk when `create_pdf` returns, whether the run
succeeded or failed — provided no listed image file has zero width
(PIL cannot produce one, and a zero-width file raises before the copy
is drawn). -/
theorem C9_no_temp_left (a : PdfArgs)
    (hwidth : ∀ p ∈ a.image_list, widthOkB (a.fs0 p) = true) :
    (create_pdf a).2.derived = [] :=
  create_pdf_no_derived a hwidth

/-- C9 witness: the example run with a styled illustration leaves no
`organic_` file. -/
theorem C9_no_temp_left_witness :
    (create_pdf exampleArgs).2.derived = [] :=
  C9_no_temp_left exampleArgs (by decide)

/-- C10: splitting any story on the double-newline delimiter yields
at least one segment and the empty text yields `[""]`, so the
empty-story early return of `get_images_from_api` is unreachable, and
`create_pdf` on an empty story still renders one interior page (with
no image in its frame) after the cover. -/
theorem C10_empty_story (a : PdfArgs) :
    (∀ l : List Char, split2 l ≠ []) ∧
    split2 [] = [[]] ∧
    (∀ (story : List Char) (resp : Nat → Except Unit (Option ImgData)),
      get_images_from_api true story resp =
        images_loop resp 0 (split2 story) []) ∧
    (a.story_text = [] →
      coverOkB a.fs0 a.cover_image_path = true →
      (∀ p ∈ a.image_list, fileOkB (a.fs0 p) = true) →
      a.out_ok = true →
      (create_pdf a).1 = true ∧
      (create_pdf a).2.pdf.closed.length =
        2 + (if a.end_message.isEmpty then 0 else 1)) ∧
    (create_pdf exampleArgsEmpty).2.pdf.closed.map
      (fun pg => pg.images.length) = [0, 0, 0] := by
  refine ⟨split2_ne_nil, rfl, ?_, ?_, ?_⟩
  · intro story resp
    rw [get_images_from_api]
    simp [split2_ne_nil story]
  · intro hstory hcov himg hout
    have h := create_pdf_ok a himg hcov hout
    refine ⟨h.1, ?_⟩
    rw [h.2.1, hstory]
    have hone : (split2 ([] : List Char)).length = 1 := rfl
    rw [hone]
  · decide

/-- C10 witness: a nonempty split, the loop form of the image client,
and a successful empty-story render. -/
theorem C10_empty_story_witness :
    split2 "Hello".data ≠ [] ∧
    get_images_from_api true "A\n\nB".data (fun _ => .ok none) =
      images_loop (fun _ => .ok none) 0 (split2 "A\n\nB".data) [] ∧
    (create_pdf exampleArgsEmpty).1 = true ∧
    (create_pdf exampleArgsEmpty).2.pdf.closed.length = 3 := by
  refine ⟨(C10_empty_story exampleArgsEmpty).1 _,
    (C10_empty_story exampleArgsEmpty).2.2.1 _ _, ?_⟩
  have h := (C10_empty_story exampleArgsEmpty).2.2.2.1 rfl (by decide)
    (by decide) rfl
  refine ⟨h.1, ?_⟩
  rw [h.2]
  decide

end MemoryBook
